import Mathlib

/-
Verification of the gexpect binding (package expect): a Go API over
Don Libes's expect C library.  The Go source (expect.go) is embedded
shallowly below; the external C engine (exp_expectv / exp_spawnv) is
modelled from the specification, since its code is not part of this
repository.  Go machine integers are modelled as Int/Nat with explicit
truncation where the source converts between widths.
-/

namespace expect

/-- A system error (Go error / errno), carrying its message string. -/
structure SysErr where
  msg : String
  deriving DecidableEq, Repr

/-- Pattern, from expect.go: Type is a Go int, Pattern the text,
Value a Go uint (64-bit) returned on a match. -/
structure Pattern where
  «Type» : Int
  Pattern : String
  Value : Nat
  deriving DecidableEq, Repr

/-- Pattern-type constants from expect.go. -/
def _End : Int := 0

/-- exp_glob. -/
def Glob : Int := 1

/-- exp_exact. -/
def Exact : Int := 2

/-- exp_regexp. -/
def RegExp : Int := 3

/-- exp_compiled, not supported by the binding. -/
def Compiled : Int := 4

/-- exp_null. -/
def Null : Int := 5

/-- Return code: error. -/
def ERROR : Int := -1

/-- Return code: timeout. -/
def TIMEOUT : Int := -2

/-- Return code: buffer full. -/
def FULLBUFFER : Int := -5

/-- Return code: end of file. -/
def EOF : Int := -11

/-- ExpectError from expect.go: Pattern is non-nil only for a badly
specified pattern (set by Expectl); Err carries a system error. -/
structure ExpectError where
  Pattern : Option Pattern
  Err : Option SysErr
  deriving DecidableEq, Repr

/-- Go fmt %v rendering of a *Pattern value: ampersand, then the fields
separated by blanks inside braces, as in "&\x7b44 bad pattern 2\x7d". -/
def fmtPatternPtr (p : Pattern) : String :=
  "&\x7b" ++ toString p.«Type» ++ " " ++ p.Pattern ++ " " ++ toString p.Value ++ "\x7d"

/-- ExpectError.Error from expect.go: the underlying error's message when
Pattern is nil, otherwise "Bad Pattern: " and the %v-formatted Pattern.
(The source calls e.Err.Error() on the nil-Pattern path; the code only
builds that shape with Err set, so the none/none case is unreachable.) -/
def ExpectError.Error (e : ExpectError) : String :=
  match e.Pattern with
  | none => (e.Err.map SysErr.msg).getD ""
  | some p => "Bad Pattern: " ++ fmtPatternPtr p

/-- Process from expect.go; File models the *os.File stream handle
(present only when a stream was opened, carrying the file name). -/
structure Process where
  Fd : Int
  Pid : Int
  File : Option String
  deriving DecidableEq, Repr

/-- The process-wide C globals set by the configuration functions. -/
structure GlobalConfig where
  exp_timeout : Int
  exp_is_debugging : Int
  exp_loguser : Int
  deriving DecidableEq, Repr

/-- SetTimeout from expect.go: stores the timeout into the C global. -/
def SetTimeout (timeout : Int) (g : GlobalConfig) : GlobalConfig :=
  { g with exp_timeout := timeout }

/-- SetDebugging from expect.go: stores 1 or 0 into the C global. -/
def SetDebugging (debug : Bool) (g : GlobalConfig) : GlobalConfig :=
  { g with exp_is_debugging := if debug then 1 else 0 }

/-- LogToConsole from expect.go: stores 1 or 0 into the C global. -/
def LogToConsole (log : Bool) (g : GlobalConfig) : GlobalConfig :=
  { g with exp_loguser := if log then 1 else 0 }

/-- Outcome of the external exp_spawnv call (modelled: the call is in the
C library): either a descriptor with exp_pid set, or an errno. -/
inductive SpawnOutcome where
  | ok (fd : Int) (pid : Int)
  | fail (errno : SysErr)
  deriving DecidableEq, Repr

/-- Spawn from expect.go: on errno returns a Process with Fd -1 (zero
Pid, no stream) and the errno wrapped in an ExpectError; on success a
Process carrying the descriptor, pid and the opened stream. -/
def Spawn (file : String) (args : List String) (r : SpawnOutcome) :
    Process × Option ExpectError :=
  match r with
  | .fail errno => ({ Fd := -1, Pid := 0, File := none }, some { Pattern := none, Err := some errno })
  | .ok fd pid => ({ Fd := fd, Pid := pid, File := some file }, none)

/-! Matching rules of the engine, modelled from the spec (§4.2): the
engine itself is the external C library, not part of this repository. -/

/-- Modelled from the spec: does f accept some contiguous substring of
the buffer (all substrings enumerated via tails and inits). -/
def subMatch (f : List Char → Bool) (buf : List Char) : Bool :=
  buf.tails.any (fun t => t.inits.any f)

/-- Modelled from the spec: Exact matching — the pattern text appears
verbatim as a contiguous substring of the buffer. -/
def exactMatches (pat : List Char) (buf : List Char) : Bool :=
  subMatch (fun s => s == pat) buf

/-- Modelled from the spec: shell-style wildcard matching of a whole
string — star matches any run, question mark any single character,
anything else is literal. -/
def globFull : List Char → List Char → Bool
  | [], [] => true
  | [], _ :: _ => false
  | '*' :: ps, [] => globFull ps []
  | '*' :: ps, c :: cs => globFull ps (c :: cs) || globFull ('*' :: ps) cs
  | '?' :: ps, _ :: cs => globFull ps cs
  | _ :: _, [] => false
  | p :: ps, c :: cs => p == c && globFull ps cs
termination_by p t => (p.length, t.length)

/-- Modelled from the spec: Glob matching — the wildcard pattern matches
some contiguous substring of the buffer. -/
def globMatches (pat : List Char) (buf : List Char) : Bool :=
  subMatch (globFull pat) buf

/-- Modelled from the spec: regular-expression abstract syntax (literal
characters, the any-character dot, sequencing, alternation, star). -/
inductive Regex where
  | emptyR : Regex
  | epsR : Regex
  | charR (c : Char) : Regex
  | anyR : Regex
  | seqR (r1 r2 : Regex) : Regex
  | altR (r1 r2 : Regex) : Regex
  | starR (r : Regex) : Regex
  deriving DecidableEq, Repr

/-- Does the regular expression accept the empty string. -/
def Regex.nullable : Regex → Bool
  | .emptyR => false
  | .epsR => true
  | .charR _ => false
  | .anyR => false
  | .seqR r1 r2 => r1.nullable && r2.nullable
  | .altR r1 r2 => r1.nullable || r2.nullable
  | .starR _ => true

/-- Brzozowski derivative of a regular expression by one character. -/
def Regex.deriv : Regex → Char → Regex
  | .emptyR, _ => .emptyR
  | .epsR, _ => .emptyR
  | .charR c, a => if c == a then .epsR else .emptyR
  | .anyR, _ => .epsR
  | .seqR r1 r2, a =>
      if r1.nullable then .altR (.seqR (r1.deriv a) r2) (r2.deriv a)
      else .seqR (r1.deriv a) r2
  | .altR r1 r2, a => .altR (r1.deriv a) (r2.deriv a)
  | .starR r, a => .seqR (r.deriv a) (.starR r)

/-- Whole-string regular-expression matching by iterated derivatives. -/
def rmatch (r : Regex) (s : List Char) : Bool :=
  (s.foldl Regex.deriv r).nullable

/-- Modelled from the spec: parse the pattern text into a list of atoms,
a postfix star applying to the atom just before it. -/
def parseAtoms : List Char → List Regex
  | [] => []
  | '.' :: '*' :: rest => .starR .anyR :: parseAtoms rest
  | '.' :: rest => .anyR :: parseAtoms rest
  | '*' :: rest => parseAtoms rest
  | c :: '*' :: rest => .starR (.charR c) :: parseAtoms rest
  | c :: rest => .charR c :: parseAtoms rest

/-- Modelled from the spec: the regular expression denoted by a pattern
text, the sequence of its atoms. -/
def parseRegex (pat : List Char) : Regex :=
  (parseAtoms pat).foldr Regex.seqR .epsR

/-- Modelled from the spec: RegExp matching — some contiguous substring
of the buffer satisfies the regular expression. -/
def regexpMatches (pat : List Char) (buf : List Char) : Bool :=
  subMatch (rmatch (parseRegex pat)) buf

/-- The rule of one Pattern, by its kind; any kind outside Glob, Exact
and RegExp never matches. -/
def patMatches (p : Pattern) (buf : List Char) : Bool :=
  if p.«Type» = Glob then globMatches p.Pattern.data buf
  else if p.«Type» = Exact then exactMatches p.Pattern.data buf
  else if p.«Type» = RegExp then regexpMatches p.Pattern.data buf
  else false

/-- Go conversion of an integer to C.int (signed 32-bit): truncate to
the low 32 bits, then read as two's complement. -/
def toS32 (v : Nat) : Int :=
  if v % 2 ^ 32 < 2 ^ 31 then (v % 2 ^ 32 : Nat) else (v % 2 ^ 32 : Nat) - 2 ^ 32

/-- Go conversion of an int to uint32: truncate to the low 32 bits. -/
def toU32 (t : Int) : Nat :=
  (t % 2 ^ 32).toNat

/-- C struct exp_case from the engine's interface: the pattern text (nil
for the end entry), the compiled-regexp slot (always nil here), the
type as uint32 and the value as C.int. -/
structure ExpCase where
  pattern : Option String
  re : Option Unit
  «type» : Nat
  value : Int
  deriving DecidableEq, Repr

/-- One ecases entry built by Expectl from a Pattern: text, the type
narrowed to uint32 and the value narrowed to C.int. -/
def marshalCase (v : Pattern) : ExpCase :=
  { pattern := some v.Pattern, re := none, «type» := toU32 v.«Type», value := toS32 v.Value }

/-- The terminator entry Expectl places at the end of ecases. -/
def endCase : ExpCase :=
  { pattern := none, re := none, «type» := toU32 _End, value := 0 }

/-- The ecases array Expectl builds: one marshalled entry per pattern,
in input order, closed by the end terminator. -/
def buildCases (patterns : List Pattern) : List ExpCase :=
  patterns.map marshalCase ++ [endCase]

/-- Modelled from the spec: the rule of one engine case against the
buffer; an entry without a pattern text (the end terminator) or with a
kind outside Glob, Exact and RegExp never matches. -/
def caseMatches (c : ExpCase) (buf : List Char) : Bool :=
  match c.pattern with
  | none => false
  | some p =>
      if c.«type» = 1 then globMatches p.data buf
      else if c.«type» = 2 then exactMatches p.data buf
      else if c.«type» = 3 then regexpMatches p.data buf
      else false

/-- Modelled from the spec: test every case against the buffer in list
order; the first whose rule matches wins and yields its value. -/
def findMatch (cases : List ExpCase) (buf : List Char) : Option Int :=
  match cases with
  | [] => none
  | c :: rest => if caseMatches c buf then some c.value else findMatch rest buf

/-- Modelled from the spec: one observable event on the child's stream —
a chunk of bytes arriving after a delay in seconds, end of stream, or
an I/O failure with its errno. -/
inductive ReadEvent where
  | chunk (delay : Nat) (bytes : List Char)
  | eofEv
  | errEv (e : SysErr)
  deriving DecidableEq, Repr

/-- Modelled from the spec: how one engine invocation ends. -/
inductive EngineOutcome where
  | matched (value : Int)
  | timedOut
  | sawEof
  | fullBuffer
  | ioErr (e : SysErr)
  deriving DecidableEq, Repr

/-- Modelled from the spec: the blocking read-and-match loop.  Each read
blocks up to the timeout (a chunk arriving later than a non-negative
timeout times out); arriving bytes are appended to the accumulation
buffer and the cases are tested in list order; exceeding the internal
capacity without a match gives fullBuffer; end of stream gives sawEof;
an errno gives ioErr; an exhausted stream with no further bytes gives
timedOut.  Returns the outcome and the unconsumed events. -/
def engineRun (cases : List ExpCase) (timeout : Int) (maxBuf : Nat) :
    List Char → List ReadEvent → EngineOutcome × List ReadEvent
  | _, [] => (.timedOut, [])
  | buf, ev :: rest =>
    match ev with
    | .chunk d bs =>
        if 0 ≤ timeout ∧ timeout < (d : Int) then (.timedOut, ev :: rest)
        else
          match findMatch cases (buf ++ bs) with
          | some v => (.matched v, rest)
          | none =>
              if maxBuf < (buf ++ bs).length then (.fullBuffer, rest)
              else engineRun cases timeout maxBuf (buf ++ bs) rest
    | .eofEv => (.sawEof, rest)
    | .errEv e => (.ioErr e, rest)

/-- The successive accumulation buffers the engine sees: the running
buffer extended by each chunk in turn, up to the first non-chunk event. -/
def accumBuffers (buf : List Char) : List ReadEvent → List (List Char)
  | [] => []
  | .chunk _ bs :: rest => (buf ++ bs) :: accumBuffers (buf ++ bs) rest
  | .eofEv :: _ => []
  | .errEv _ :: _ => []

/-- Modelled from the spec: the external exp_expectv call — runs the
engine from an empty buffer and flattens the outcome to the C return
convention: the matched value, or the TIMEOUT, EOF or FULLBUFFER
sentinel, or an errno. -/
def exp_expectv (fd : Int) (cases : List ExpCase) (timeout : Int) (maxBuf : Nat)
    (st : List ReadEvent) : Except SysErr Int × List ReadEvent :=
  match engineRun cases timeout maxBuf [] st with
  | (.matched v, rest) => (.ok v, rest)
  | (.timedOut, rest) => (.ok TIMEOUT, rest)
  | (.sawEof, rest) => (.ok EOF, rest)
  | (.fullBuffer, rest) => (.ok FULLBUFFER, rest)
  | (.ioErr e, rest) => (.error e, rest)

/-- The switch in Expectl's validation loop: only Glob, Exact and RegExp
are accepted. -/
def isValidType (t : Int) : Bool :=
  t == Glob || t == Exact || t == RegExp

/-- Expectl from expect.go: validate the patterns, returning ERROR with
a BadPattern ExpectError on the first invalid one without touching the
stream; otherwise build the ecases array (the marshalled patterns and
the end terminator) and call the engine, turning an errno into ERROR
with the wrapped error and otherwise passing the engine's value through
with no error.  The C globals are read, never written.  Returns the
result pair, the remaining stream events and the unchanged globals. -/
def Process.Expectl (p : Process) (g : GlobalConfig) (maxBuf : Nat)
    (st : List ReadEvent) (patterns : List Pattern) :
    ((Int × Option ExpectError) × List ReadEvent) × GlobalConfig :=
  match patterns.find? (fun v => !isValidType v.«Type») with
  | some v => (((ERROR, some { Pattern := some v, Err := none }), st), g)
  | none =>
      match exp_expectv p.Fd (buildCases patterns) g.exp_timeout maxBuf st with
      | (.error e, rest) => (((ERROR, some { Pattern := none, Err := some e }), rest), g)
      | (.ok v, rest) => (((v, none), rest), g)

/-! Helper lemmas. -/

/-- A valid pattern type is Glob, Exact or RegExp. -/
lemma valid_type_cases (t : Int) (h : isValidType t = true) : t = 1 ∨ t = 2 ∨ t = 3 := by
  simp only [isValidType, Glob, Exact, RegExp, Bool.or_eq_true, beq_iff_eq] at h
  tauto

/-- The end terminator never matches. -/
lemma caseMatches_endCase (buf : List Char) : caseMatches endCase buf = false := rfl

/-- For a pattern of valid type, the marshalled case's rule agrees with
the pattern's rule. -/
lemma caseMatches_marshal (p : Pattern) (buf : List Char)
    (h : isValidType p.«Type» = true) :
    caseMatches (marshalCase p) buf = patMatches p buf := by
  rcases valid_type_cases p.«Type» h with h1 | h1 | h1 <;>
    simp [caseMatches, marshalCase, patMatches, toU32, Glob, Exact, RegExp, h1]

/-- The end terminator at the end of the case list changes nothing. -/
lemma findMatch_end (xs : List ExpCase) (buf : List Char) :
    findMatch (xs ++ [endCase]) buf = findMatch xs buf := by
  induction xs with
  | nil => simp [findMatch, caseMatches_endCase]
  | cons c rest ih => cases hc : caseMatches c buf <;> simp [findMatch, hc, ih]

/-- A first match over the marshalled cases is a first match over the
patterns in list order: the winning index matches, its narrowed Value
is the result, and every earlier pattern fails to match. -/
lemma findMatch_patterns (ps : List Pattern) (buf : List Char) (v : Int)
    (hval : ∀ q ∈ ps, isValidType q.«Type» = true)
    (h : findMatch (ps.map marshalCase) buf = some v) :
    ∃ i, ∃ hi : i < ps.length, patMatches (ps.get ⟨i, hi⟩) buf = true ∧
      v = toS32 (ps.get ⟨i, hi⟩).Value ∧
      ∀ j, ∀ hj : j < ps.length, j < i → patMatches (ps.get ⟨j, hj⟩) buf = false := by
  induction ps with
  | nil => simp [findMatch] at h
  | cons q rest ih =>
      have hq : isValidType q.«Type» = true := hval q (List.mem_cons_self q rest)
      have hrest : ∀ r ∈ rest, isValidType r.«Type» = true :=
        fun r hr => hval r (List.mem_cons_of_mem q hr)
      rw [List.map_cons] at h
      cases hc : caseMatches (marshalCase q) buf with
      | true =>
          rw [findMatch, if_pos hc] at h
          refine ⟨0, Nat.succ_pos _, ?_, ?_, ?_⟩
          · show patMatches q buf = true
            rw [← caseMatches_marshal q buf hq]; exact hc
          · cases h; rfl
          · intro j hj hj0; omega
      | false =>
          rw [findMatch, if_neg (by simp [hc])] at h
          obtain ⟨i, hi, hm, hv, hmin⟩ := ih hrest h
          refine ⟨i + 1, Nat.succ_lt_succ hi, hm, hv, ?_⟩
          intro j hj hji
          cases j with
          | zero =>
              show patMatches q buf = false
              rw [← caseMatches_marshal q buf hq]; exact hc
          | succ j' => exact hmin j' (Nat.lt_of_succ_lt_succ hj) (Nat.lt_of_succ_lt_succ hji)

/-- A first match over the built case array is a first match over the
patterns in list order. -/
lemma findMatch_buildCases (ps : List Pattern) (buf : List Char) (v : Int)
    (hval : ∀ q ∈ ps, isValidType q.«Type» = true)
    (h : findMatch (buildCases ps) buf = some v) :
    ∃ i, ∃ hi : i < ps.length, patMatches (ps.get ⟨i, hi⟩) buf = true ∧
      v = toS32 (ps.get ⟨i, hi⟩).Value ∧
      ∀ j, ∀ hj : j < ps.length, j < i → patMatches (ps.get ⟨j, hj⟩) buf = false := by
  rw [buildCases, findMatch_end] at h
  exact findMatch_patterns ps buf v hval h

/-- The engine returns a match only by finding it on one of the
accumulation buffers. -/
lemma engineRun_matched (cases : List ExpCase) (timeout : Int) (maxBuf : Nat) :
    ∀ (evs : List ReadEvent) (buf : List Char) (v : Int) (rest : List ReadEvent),
      engineRun cases timeout maxBuf buf evs = (.matched v, rest) →
      ∃ B ∈ accumBuffers buf evs, findMatch cases B = some v := by
  intro evs
  induction evs with
  | nil => intro buf v rest h; simp [engineRun] at h
  | cons ev rest' ih =>
      intro buf v rest h
      cases ev with
      | chunk d bs =>
          rw [engineRun] at h
          by_cases ht : 0 ≤ timeout ∧ timeout < (d : Int)
          · rw [if_pos ht] at h; simp at h
          · rw [if_neg ht] at h
            cases hf : findMatch cases (buf ++ bs) with
            | some v' =>
                rw [hf] at h
                simp only [Prod.mk.injEq, EngineOutcome.matched.injEq] at h
                exact ⟨buf ++ bs, by simp [accumBuffers], by rw [hf, h.1]⟩
            | none =>
                rw [hf] at h
                by_cases hb : maxBuf < (buf ++ bs).length
                · rw [if_pos hb] at h; simp at h
                · rw [if_neg hb] at h
                  obtain ⟨B, hB, hBm⟩ := ih (buf ++ bs) v rest h
                  exact ⟨B, by simp [accumBuffers, hB], hBm⟩
      | eofEv => rw [engineRun] at h; simp at h
      | errEv e => rw [engineRun] at h; simp at h

/-- When every pattern is valid, the validation loop finds nothing. -/
lemma find?_valid_none (ps : List Pattern)
    (hval : ∀ q ∈ ps, isValidType q.«Type» = true) :
    ps.find? (fun v => !isValidType v.«Type») = none :=
  List.find?_eq_none.mpr (fun x hx => by simp [hval x hx])

/-- find? returns the element at the first index satisfying the test. -/
lemma find?_first {α : Type} (p : α → Bool) :
    ∀ (l : List α) (i : Nat) (hi : i < l.length),
      p (l.get ⟨i, hi⟩) = true →
      (∀ j, ∀ hj : j < l.length, j < i → p (l.get ⟨j, hj⟩) = false) →
      l.find? p = some (l.get ⟨i, hi⟩) := by
  intro l
  induction l with
  | nil => intro i hi; simp at hi
  | cons a tl ih =>
      intro i hi hp hmin
      cases i with
      | zero => exact List.find?_cons_of_pos _ hp
      | succ i' =>
          have ha : p a = false := hmin 0 (Nat.succ_pos _) (Nat.succ_pos _)
          rw [List.find?_cons_of_neg _ (by simp [ha])]
          exact ih i' (Nat.lt_of_succ_lt_succ hi) hp
            (fun j hj hji => hmin (j + 1) (Nat.succ_lt_succ hj) (Nat.succ_lt_succ hji))

/-! Claim theorems. -/

/-- C4: the four sentinel result codes have exactly the values
ERROR = -1, TIMEOUT = -2, FULLBUFFER = -5 and EOF = -11; all four are
negative, hence distinct from every non-negative result code. -/
theorem sentinel_codes_spec :
    ERROR = -1 ∧ TIMEOUT = -2 ∧ FULLBUFFER = -5 ∧ EOF = -11 ∧
    ERROR < 0 ∧ TIMEOUT < 0 ∧ FULLBUFFER < 0 ∧ EOF < 0 ∧
    ∀ v : Int, 0 ≤ v → v ≠ ERROR ∧ v ≠ TIMEOUT ∧ v ≠ FULLBUFFER ∧ v ≠ EOF := by
  refine ⟨rfl, rfl, rfl, rfl, by decide, by decide, by decide, by decide, ?_⟩
  intro v hv
  simp only [ERROR, TIMEOUT, FULLBUFFER, EOF, ne_eq]
  omega

/-- Witness for C4 at the concrete non-negative code 5. -/
theorem sentinel_codes_spec_witness :
    (0 : Int) ≤ 5 ∧
    ((5 : Int) ≠ ERROR ∧ (5 : Int) ≠ TIMEOUT ∧ (5 : Int) ≠ FULLBUFFER ∧ (5 : Int) ≠ EOF) :=
  ⟨by decide, sentinel_codes_spec.2.2.2.2.2.2.2.2 5 (by decide)⟩

/-- C6: with a nil Pattern, ExpectError.Error is exactly the underlying
system error's message, verbatim; with a non-nil Pattern it is
"Bad Pattern: " followed by the %v-formatted full Pattern value, as in
the concrete instance from the repository's own test. -/
theorem ExpectError_Error_spec :
    (∀ s : SysErr, ExpectError.Error { Pattern := none, Err := some s } = s.msg) ∧
    (∀ (p : Pattern) (eo : Option SysErr),
      ExpectError.Error { Pattern := some p, Err := eo } = "Bad Pattern: " ++ fmtPatternPtr p) ∧
    ExpectError.Error
        { Pattern := some { «Type» := 44, Pattern := "bad pattern", Value := 2 }, Err := none } =
      "Bad Pattern: &\x7b44 bad pattern 2\x7d" :=
  ⟨fun _ => rfl, fun _ _ => rfl, by decide⟩

/-- C3: a failed spawn returns a Process with descriptor -1 and no
stream handle (no usable, half-open session) together with an error
whose message is the OS failure description verbatim. -/
theorem Spawn_failure_spec :
    ∀ (file : String) (args : List String) (e : SysErr),
      Spawn file args (.fail e) =
        ({ Fd := -1, Pid := 0, File := none }, some { Pattern := none, Err := some e }) ∧
      (Spawn file args (.fail e)).1.File = none ∧
      (Spawn file args (.fail e)).1.Fd = -1 ∧
      ExpectError.Error { Pattern := none, Err := some e } = e.msg :=
  fun _ _ _ => ⟨rfl, rfl, rfl, rfl⟩

/-- C8: SetTimeout, SetDebugging and LogToConsole each write exactly one
process-wide setting and leave the other two untouched; repeated writes
are last-writer-wins; a match call returns the global configuration
unchanged (it reads but never mutates it). -/
theorem global_settings_spec :
    (∀ (t : Int) (g : GlobalConfig),
      (SetTimeout t g).exp_timeout = t ∧
      (SetTimeout t g).exp_is_debugging = g.exp_is_debugging ∧
      (SetTimeout t g).exp_loguser = g.exp_loguser) ∧
    (∀ (b : Bool) (g : GlobalConfig),
      (SetDebugging b g).exp_is_debugging = (if b then 1 else 0) ∧
      (SetDebugging b g).exp_timeout = g.exp_timeout ∧
      (SetDebugging b g).exp_loguser = g.exp_loguser) ∧
    (∀ (b : Bool) (g : GlobalConfig),
      (LogToConsole b g).exp_loguser = (if b then 1 else 0) ∧
      (LogToConsole b g).exp_timeout = g.exp_timeout ∧
      (LogToConsole b g).exp_is_debugging = g.exp_is_debugging) ∧
    (∀ (t1 t2 : Int) (g : GlobalConfig), SetTimeout t2 (SetTimeout t1 g) = SetTimeout t2 g) ∧
    (∀ (b1 b2 : Bool) (g : GlobalConfig), SetDebugging b2 (SetDebugging b1 g) = SetDebugging b2 g) ∧
    (∀ (b1 b2 : Bool) (g : GlobalConfig), LogToConsole b2 (LogToConsole b1 g) = LogToConsole b2 g) ∧
    (∀ (p : Process) (g : GlobalConfig) (m : Nat) (st : List ReadEvent) (ps : List Pattern),
      (p.Expectl g m st ps).2 = g) := by
  refine ⟨fun _ _ => ⟨rfl, rfl, rfl⟩, fun _ _ => ⟨rfl, rfl, rfl⟩, fun _ _ => ⟨rfl, rfl, rfl⟩,
    fun _ _ _ => rfl, fun _ _ _ => rfl, fun _ _ _ => rfl, ?_⟩
  intro p g m st ps
  simp only [Process.Expectl]
  split
  · rfl
  · split <;> rfl

/-- C2: when the patterns list holds an entry whose Type is not Glob,
Exact or RegExp, Expectl returns ERROR together with a BadPattern error
carrying the first such offending Pattern by its full value, and the
whole call aborts with the stream untouched (the events are returned
unconsumed, so no I/O is performed) and the globals unchanged. -/
theorem Expectl_bad_pattern_spec (p : Process) (g : GlobalConfig) (m : Nat)
    (st : List ReadEvent) (ps : List Pattern) (i : Nat) (hi : i < ps.length)
    (hbad : isValidType (ps.get ⟨i, hi⟩).«Type» = false)
    (hfirst : ∀ j, ∀ hj : j < ps.length, j < i → isValidType (ps.get ⟨j, hj⟩).«Type» = true) :
    p.Expectl g m st ps =
      (((ERROR, some { Pattern := some (ps.get ⟨i, hi⟩), Err := none }), st), g) := by
  have hf : ps.find? (fun v => !isValidType v.«Type») = some (ps.get ⟨i, hi⟩) :=
    find?_first _ ps i hi
      (by show (!isValidType (ps.get ⟨i, hi⟩).«Type») = true; rw [hbad]; rfl)
      (fun j hj hji => by
        show (!isValidType (ps.get ⟨j, hj⟩).«Type») = false
        rw [hfirst j hj hji]; rfl)
  simp only [Process.Expectl, hf]

/-- Witness for C2: a valid Glob entry followed by a legacy Compiled
entry; Expectl reports the Compiled entry and leaves the stream as is. -/
theorem Expectl_bad_pattern_spec_witness :
    isValidType Compiled = false ∧ isValidType Glob = true ∧
    Process.Expectl { Fd := 5, Pid := 100, File := some "/bin/echo" }
        { exp_timeout := 10, exp_is_debugging := 0, exp_loguser := 0 } 2000
        [.chunk 0 "hello world".data]
        [{ «Type» := Glob, Pattern := "ok", Value := 1 },
         { «Type» := Compiled, Pattern := "x", Value := 2 }] =
      (((ERROR,
        some { Pattern := some { «Type» := Compiled, Pattern := "x", Value := 2 }, Err := none }),
        [.chunk 0 "hello world".data]),
        { exp_timeout := 10, exp_is_debugging := 0, exp_loguser := 0 }) :=
  ⟨by decide, by decide,
    Expectl_bad_pattern_spec _ _ _ _ _ 1 (by decide) (by decide)
      (by
        intro j hj hji
        cases j with
        | zero => rfl
        | succ n => omega)⟩

/-- C5: with valid patterns, Expectl returns ERROR with a non-nil error
carrying the underlying system error verbatim exactly on an engine I/O
failure; the soft outcomes are returned as the TIMEOUT, EOF and
FULLBUFFER result codes with no error, and a match returns the engine's
value with no error. -/
theorem Expectl_error_classification (p : Process) (g : GlobalConfig) (m : Nat)
    (st : List ReadEvent) (ps : List Pattern)
    (hval : ∀ q ∈ ps, isValidType q.«Type» = true) :
    (∀ (e : SysErr) (rest : List ReadEvent),
      engineRun (buildCases ps) g.exp_timeout m [] st = (.ioErr e, rest) →
      p.Expectl g m st ps = (((ERROR, some { Pattern := none, Err := some e }), rest), g) ∧
      ExpectError.Error { Pattern := none, Err := some e } = e.msg) ∧
    (∀ rest : List ReadEvent,
      engineRun (buildCases ps) g.exp_timeout m [] st = (.timedOut, rest) →
      p.Expectl g m st ps = (((TIMEOUT, none), rest), g)) ∧
    (∀ rest : List ReadEvent,
      engineRun (buildCases ps) g.exp_timeout m [] st = (.sawEof, rest) →
      p.Expectl g m st ps = (((EOF, none), rest), g)) ∧
    (∀ rest : List ReadEvent,
      engineRun (buildCases ps) g.exp_timeout m [] st = (.fullBuffer, rest) →
      p.Expectl g m st ps = (((FULLBUFFER, none), rest), g)) ∧
    (∀ (v : Int) (rest : List ReadEvent),
      engineRun (buildCases ps) g.exp_timeout m [] st = (.matched v, rest) →
      p.Expectl g m st ps = (((v, none), rest), g)) := by
  have hf : ps.find? (fun v => !isValidType v.«Type») = none := find?_valid_none ps hval
  refine ⟨fun e rest h => ⟨?_, rfl⟩, fun rest h => ?_, fun rest h => ?_,
    fun rest h => ?_, fun v rest h => ?_⟩ <;>
    simp only [Process.Expectl, hf, exp_expectv, h]

/-- Witness for C5: a read from a closed descriptor surfaces the errno
as a hard ERROR carrying "bad file descriptor" verbatim. -/
theorem Expectl_error_classification_witness :
    engineRun (buildCases [{ «Type» := Glob, Pattern := "input", Value := 1 }]) 1 2000 []
        [.errEv { msg := "bad file descriptor" }] =
      (.ioErr { msg := "bad file descriptor" }, []) ∧
    (Process.Expectl { Fd := 5, Pid := 100, File := some "sed" }
        { exp_timeout := 1, exp_is_debugging := 0, exp_loguser := 0 } 2000
        [.errEv { msg := "bad file descriptor" }]
        [{ «Type» := Glob, Pattern := "input", Value := 1 }] =
      (((ERROR, some { Pattern := none, Err := some { msg := "bad file descriptor" } }), []),
        { exp_timeout := 1, exp_is_debugging := 0, exp_loguser := 0 }) ∧
    ExpectError.Error { Pattern := none, Err := some { msg := "bad file descriptor" } } =
      "bad file descriptor") :=
  ⟨by decide,
    (Expectl_error_classification _ _ _ _ _ (by decide)).1
      { msg := "bad file descriptor" } [] (by decide)⟩

/-- Narrowing to C.int is the identity on values below 2^31. -/
lemma toS32_small (v : Nat) (h : v < 2 ^ 31) : toS32 v = v := by
  unfold toS32
  rw [Nat.mod_eq_of_lt (lt_trans h (by norm_num)), if_pos h]

/-- When no case can ever match, the engine never returns a match. -/
lemma engineRun_no_match (cases : List ExpCase) (t : Int) (m : Nat)
    (hnone : ∀ B, findMatch cases B = none) :
    ∀ (evs : List ReadEvent) (buf : List Char) (v : Int) (rest : List ReadEvent),
      engineRun cases t m buf evs ≠ (.matched v, rest) := by
  intro evs
  induction evs with
  | nil => intro buf v rest h; simp [engineRun] at h
  | cons ev rest' ih =>
      intro buf v rest h
      cases ev with
      | chunk d bs =>
          rw [engineRun] at h
          by_cases ht : 0 ≤ t ∧ t < (d : Int)
          · rw [if_pos ht] at h; simp at h
          · rw [if_neg ht] at h
            simp only [hnone (buf ++ bs)] at h
            by_cases hb : m < (buf ++ bs).length
            · rw [if_pos hb] at h; simp at h
            · rw [if_neg hb] at h; exact ih _ v rest h
      | eofEv => rw [engineRun] at h; simp at h
      | errEv e => rw [engineRun] at h; simp at h

/-- C1 counterexample: a single Exact pattern with resultCode 4294967295
matches the output "a", yet Expectl returns -1, not the pattern's
resultCode (the uint Value was narrowed to a C int). -/
theorem Expectl_first_match_counterexample :
    patMatches { «Type» := Exact, Pattern := "a", Value := 4294967295 } ['a'] = true ∧
    (Process.Expectl { Fd := 5, Pid := 100, File := some "sed" }
        { exp_timeout := 10, exp_is_debugging := 0, exp_loguser := 0 } 2000
        [.chunk 0 ['a']]
        [{ «Type» := Exact, Pattern := "a", Value := 4294967295 }]).1.1 =
      ((-1 : Int), (none : Option ExpectError)) ∧
    (-1 : Int) ≠ (4294967295 : Int) :=
  ⟨by decide, by decide, by decide⟩

/-- C1 (amended): for valid patterns, when the engine reports a match,
Expectl returns with no error the narrowed (signed 32-bit) resultCode
of the first pattern in list order whose rule matches the accumulated
output — equal to the resultCode itself whenever Value < 2^31 — and
never the code of a later pattern: every pattern earlier in the list
fails to match that buffer, whatever positions the matches start at. -/
theorem Expectl_first_match (p : Process) (g : GlobalConfig) (m : Nat)
    (st : List ReadEvent) (ps : List Pattern) (v : Int) (rest : List ReadEvent)
    (hval : ∀ q ∈ ps, isValidType q.«Type» = true)
    (hrun : engineRun (buildCases ps) g.exp_timeout m [] st = (.matched v, rest)) :
    p.Expectl g m st ps = (((v, none), rest), g) ∧
    ∃ B ∈ accumBuffers [] st, ∃ i, ∃ hi : i < ps.length,
      patMatches (ps.get ⟨i, hi⟩) B = true ∧
      v = toS32 (ps.get ⟨i, hi⟩).Value ∧
      ((ps.get ⟨i, hi⟩).Value < 2 ^ 31 → v = ((ps.get ⟨i, hi⟩).Value : Int)) ∧
      ∀ j, ∀ hj : j < ps.length, j < i → patMatches (ps.get ⟨j, hj⟩) B = false := by
  constructor
  · have hf : ps.find? (fun v => !isValidType v.«Type») = none := find?_valid_none ps hval
    simp only [Process.Expectl, hf, exp_expectv, hrun]
  · obtain ⟨B, hB, hfm⟩ := engineRun_matched _ _ _ st [] v rest hrun
    obtain ⟨i, hi, hm, hv, hmin⟩ := findMatch_buildCases ps B v hval hfm
    exact ⟨B, hB, i, hi, hm, hv, fun hlt => by rw [hv, toS32_small _ hlt], hmin⟩

/-- Witness for C1: two Exact patterns against output "ab" — the second
pattern's match "a" starts earlier in the buffer, but the first pattern
in list order, matching "b", wins with code 7. -/
theorem Expectl_first_match_witness :
    (∀ q ∈ ([{ «Type» := Exact, Pattern := "b", Value := 7 },
             { «Type» := Exact, Pattern := "a", Value := 9 }] : List Pattern),
      isValidType q.«Type» = true) ∧
    (Process.Expectl { Fd := 5, Pid := 100, File := some "sed" }
        { exp_timeout := 10, exp_is_debugging := 0, exp_loguser := 0 } 2000
        [.chunk 0 ['a', 'b']]
        [{ «Type» := Exact, Pattern := "b", Value := 7 },
         { «Type» := Exact, Pattern := "a", Value := 9 }] =
      ((((7 : Int), none), []),
        { exp_timeout := 10, exp_is_debugging := 0, exp_loguser := 0 }) ∧
    ∃ B ∈ accumBuffers []
        [ReadEvent.chunk 0 ['a', 'b']], ∃ i, ∃ hi : i <
          ([{ «Type» := Exact, Pattern := "b", Value := 7 },
             { «Type» := Exact, Pattern := "a", Value := 9 }] : List Pattern).length,
      patMatches (([{ «Type» := Exact, Pattern := "b", Value := 7 },
          { «Type» := Exact, Pattern := "a", Value := 9 }] : List Pattern).get ⟨i, hi⟩) B = true ∧
      (7 : Int) = toS32 (([{ «Type» := Exact, Pattern := "b", Value := 7 },
          { «Type» := Exact, Pattern := "a", Value := 9 }] : List Pattern).get ⟨i, hi⟩).Value ∧
      ((([{ «Type» := Exact, Pattern := "b", Value := 7 },
          { «Type» := Exact, Pattern := "a", Value := 9 }] : List Pattern).get ⟨i, hi⟩).Value <
          2 ^ 31 →
        (7 : Int) = ((([{ «Type» := Exact, Pattern := "b", Value := 7 },
          { «Type» := Exact, Pattern := "a", Value := 9 }] : List Pattern).get ⟨i, hi⟩).Value : Int)) ∧
      ∀ j, ∀ hj : j < ([{ «Type» := Exact, Pattern := "b", Value := 7 },
          { «Type» := Exact, Pattern := "a", Value := 9 }] : List Pattern).length, j < i →
        patMatches (([{ «Type» := Exact, Pattern := "b", Value := 7 },
          { «Type» := Exact, Pattern := "a", Value := 9 }] : List Pattern).get ⟨j, hj⟩) B = false) :=
  ⟨by decide, Expectl_first_match _ _ _ _ _ 7 [] (by decide) (by decide)⟩

/-- C7 counterexample: for a pattern with resultCode 2147483648 = 2^31,
the engine case entry carries the value -2147483648, not the pattern's
resultCode, so the entry does not carry the resultCode exactly. -/
theorem buildCases_counterexample :
    buildCases [{ «Type» := Exact, Pattern := "x", Value := 2147483648 }] =
      [{ pattern := some "x", re := none, «type» := 2, value := -2147483648 }, endCase] ∧
    (-2147483648 : Int) ≠ (2147483648 : Int) :=
  ⟨by decide, by decide⟩

/-- C7 (amended): for a valid patterns list of length n, Expectl builds
a case array of length n+1 whose entry i carries exactly pattern i's
text and kind, and its resultCode narrowed to a signed 32-bit value —
the resultCode verbatim whenever Value < 2^31; the final entry is the
internal end terminator; on a match the returned code is the winning
pattern's narrowed resultCode. -/
theorem buildCases_spec (ps : List Pattern) (t : Int) (m : Nat)
    (hval : ∀ q ∈ ps, isValidType q.«Type» = true) :
    (buildCases ps).length = ps.length + 1 ∧
    (∀ i, ∀ hi : i < ps.length,
      (buildCases ps)[i]? = some (marshalCase (ps.get ⟨i, hi⟩)) ∧
      (marshalCase (ps.get ⟨i, hi⟩)).pattern = some (ps.get ⟨i, hi⟩).Pattern ∧
      ((marshalCase (ps.get ⟨i, hi⟩)).«type» : Int) = (ps.get ⟨i, hi⟩).«Type» ∧
      (marshalCase (ps.get ⟨i, hi⟩)).value = toS32 (ps.get ⟨i, hi⟩).Value ∧
      ((ps.get ⟨i, hi⟩).Value < 2 ^ 31 →
        (marshalCase (ps.get ⟨i, hi⟩)).value = ((ps.get ⟨i, hi⟩).Value : Int))) ∧
    (buildCases ps)[ps.length]? = some endCase ∧
    (∀ (st : List ReadEvent) (v : Int) (rest : List ReadEvent),
      engineRun (buildCases ps) t m [] st = (.matched v, rest) →
      ∃ i, ∃ hi : i < ps.length, v = toS32 (ps.get ⟨i, hi⟩).Value) := by
  refine ⟨by simp [buildCases], ?_, ?_, ?_⟩
  · intro i hi
    refine ⟨?_, rfl, ?_, rfl, fun hlt => toS32_small _ hlt⟩
    · rw [buildCases, List.getElem?_append_left (by simpa using hi), List.getElem?_map]
      rw [(List.getElem?_eq_some_getElem_iff ps i hi).mpr trivial]
      simp
    · show ((toU32 (ps.get ⟨i, hi⟩).«Type» : Nat) : Int) = (ps.get ⟨i, hi⟩).«Type»
      rcases valid_type_cases _ (hval _ (List.get_mem ps i hi)) with h | h | h <;>
        rw [h] <;> decide
  · rw [buildCases, List.getElem?_append_right (by simp)]
    simp
  · intro st v rest hrun
    obtain ⟨B, _, hfm⟩ := engineRun_matched _ _ _ st [] v rest hrun
    obtain ⟨i, hi, _, hv, _⟩ := findMatch_buildCases ps B v hval hfm
    exact ⟨i, hi, hv⟩

/-- Witness for C7 at the test suite's three-pattern list. -/
theorem buildCases_spec_witness :
    (∀ q ∈ ([{ «Type» := Exact, Pattern := "a response", Value := 1 },
             { «Type» := Glob, Pattern := "wombats", Value := 2 },
             { «Type» := RegExp, Pattern := "ABO.T", Value := 3 }] : List Pattern),
      isValidType q.«Type» = true) ∧
    (buildCases [{ «Type» := Exact, Pattern := "a response", Value := 1 },
        { «Type» := Glob, Pattern := "wombats", Value := 2 },
        { «Type» := RegExp, Pattern := "ABO.T", Value := 3 }]).length =
      ([{ «Type» := Exact, Pattern := "a response", Value := 1 },
        { «Type» := Glob, Pattern := "wombats", Value := 2 },
        { «Type» := RegExp, Pattern := "ABO.T", Value := 3 }] : List Pattern).length + 1 :=
  ⟨by decide,
    (buildCases_spec [{ «Type» := Exact, Pattern := "a response", Value := 1 },
        { «Type» := Glob, Pattern := "wombats", Value := 2 },
        { «Type» := RegExp, Pattern := "ABO.T", Value := 3 }] 10 2000 (by decide)).1⟩

/-- C9 counterexample: Value = 2^32 is at least 2^31, yet the value
delivered to the engine case is 0, not a negative number. -/
theorem marshal_value_counterexample :
    (2 ^ 31 : Nat) ≤ 2 ^ 32 ∧
    (marshalCase { «Type» := Exact, Pattern := "x", Value := 2 ^ 32 }).value = 0 ∧
    ¬(marshalCase { «Type» := Exact, Pattern := "x", Value := 2 ^ 32 }).value < 0 :=
  ⟨by decide, by decide, by decide⟩

/-- C9 (amended): the engine case carries Value reduced modulo 2^32 and
read as a signed 32-bit integer; the delivered value is negative exactly
when Value mod 2^32 is at least 2^31 (not for every Value ≥ 2^31), it is
Value itself below 2^31, and caller-chosen Values can collide with every
reserved sentinel: the four values 2^32-1, 2^32-2, 2^32-5 and 2^32-11
are delivered as ERROR, TIMEOUT, FULLBUFFER and EOF. -/
theorem marshal_value_narrowing :
    (∀ p : Pattern, (marshalCase p).value = toS32 p.Value) ∧
    (∀ v : Nat, v < 2 ^ 64 → (toS32 v < 0 ↔ 2 ^ 31 ≤ v % 2 ^ 32)) ∧
    (∀ v : Nat, v < 2 ^ 31 → toS32 v = v) ∧
    toS32 (2 ^ 32 - 1) = ERROR ∧ toS32 (2 ^ 32 - 2) = TIMEOUT ∧
    toS32 (2 ^ 32 - 5) = FULLBUFFER ∧ toS32 (2 ^ 32 - 11) = EOF := by
  refine ⟨fun p => rfl, ?_, toS32_small, by decide, by decide, by decide, by decide⟩
  intro v hv
  simp only [toS32]
  split <;> omega

/-- Witness for C9 at Value = 2^31, where the delivered value is
negative. -/
theorem marshal_value_narrowing_witness :
    (2 ^ 31 : Nat) < 2 ^ 64 ∧ (toS32 (2 ^ 31) < 0 ↔ 2 ^ 31 ≤ (2 ^ 31 : Nat) % 2 ^ 32) :=
  ⟨by decide, marshal_value_narrowing.2.1 (2 ^ 31) (by decide)⟩

/-- C10: an empty patterns list is accepted — validation passes
vacuously, the case array is the end terminator alone, no buffer can
ever produce a match — so the call proceeds to I/O and can only end in
TIMEOUT, EOF or FULLBUFFER with no error, or in ERROR with an I/O
error, never in a pattern match. -/
theorem Expectl_empty_patterns (p : Process) (g : GlobalConfig) (m : Nat)
    (st : List ReadEvent) :
    ([] : List Pattern).find? (fun v => !isValidType v.«Type») = none ∧
    buildCases [] = [endCase] ∧
    (∀ B : List Char, findMatch (buildCases []) B = none) ∧
    (∀ (v : Int) (rest : List ReadEvent),
      engineRun (buildCases []) g.exp_timeout m [] st ≠ (.matched v, rest)) ∧
    ((p.Expectl g m st []).1.1 = (TIMEOUT, (none : Option ExpectError)) ∨
      (p.Expectl g m st []).1.1 = (EOF, none) ∨
      (p.Expectl g m st []).1.1 = (FULLBUFFER, none) ∨
      ∃ e : SysErr, (p.Expectl g m st []).1.1 = (ERROR, some { Pattern := none, Err := some e })) := by
  have hnone : ∀ B : List Char, findMatch (buildCases []) B = none := fun B => rfl
  have hnm := engineRun_no_match (buildCases []) g.exp_timeout m hnone st []
  refine ⟨rfl, rfl, hnone, fun v rest => hnm v rest, ?_⟩
  rcases ho : engineRun (buildCases []) g.exp_timeout m [] st with ⟨o, orest⟩
  cases o with
  | matched v => exact absurd ho (hnm v orest)
  | timedOut => left; simp only [Process.Expectl, List.find?, exp_expectv, ho]
  | sawEof => right; left; simp only [Process.Expectl, List.find?, exp_expectv, ho]
  | fullBuffer => right; right; left; simp only [Process.Expectl, List.find?, exp_expectv, ho]
  | ioErr e =>
      right; right; right
      exact ⟨e, by simp only [Process.Expectl, List.find?, exp_expectv, ho]⟩

end expect
